import Mathlib

/-!
Verification development for the realtimeChat repository
(Room Connection Hub and Broadcast Engine).

The Go source is shallowly embedded: the hub's room directory
(`map[string]map[string]*models.Client`) becomes an association list from
room names to member lists keyed by client ID, the hub operations
`registerClient` / `unregisterClient` / `broadcastToRoom` from
`handlers/handleWSConnection.go` become pure functions on that state, the
message-service operations (`ToggleReaction`, `AddReaction`,
`RemoveReaction`, `DeleteMessage`, `CanUserAccessRoom`, ...) from
`services` become functions on an explicit database state, and the
per-connection read loop `handleClientMessages` becomes a recursive
function over the list of successfully read frames, with each external
service call's outcome supplied by a per-frame oracle record (the spec
treats persistence and authorization as abstract external services).
Database side effects visible only in logs, and file-system effects
(`deleteMediaFile`), are not modelled; they do not affect any claim.
-/

namespace RealtimeChat

/-- A connected client as the broadcast engine sees it
(`models.Client`).  `connIsWS` models the `client.Conn.(*websocket.Conn)`
type assertion in `broadcastToRoom`; `writeFails` models whether
`conn.WriteMessage` returns an error for this connection. -/
structure WClient where
  id : String
  name : String
  connIsWS : Bool
  writeFails : Bool
  deriving Repr, DecidableEq

/-- The hub's room directory `rooms map[string]map[string]*models.Client`,
as an association list room name ↦ member list (members keyed by client
id; Go map iteration order is unspecified, the list order is one such
order). -/
abbrev RoomsMap : Type := List (String × List WClient)

/-- Lookup of `h.rooms[roomID]` (`ok` = key present). -/
def lookupRoom (rs : RoomsMap) (name : String) : Option (List WClient) :=
  (rs.find? (fun p => p.1 = name)).map (fun p => p.2)

/-- Insertion `h.rooms[client.Room][client.ID] = client` into one room's
member map: replaces an entry with the same ID, otherwise appends. -/
def insertClient (cs : List WClient) (c : WClient) : List WClient :=
  if cs.any (fun x => x.id = c.id) then
    cs.map (fun x => if x.id = c.id then c else x)
  else cs ++ [c]

/-- `Hub.registerClient` (handleWSConnection.go:71-81): create the room's
member map if absent, then add the client under its ID.  The database
side effects (join message, room update) do not touch the rooms map. -/
def registerClient (rs : RoomsMap) (c : WClient) (room : String) : RoomsMap :=
  if rs.any (fun p => p.1 = room) then
    rs.map (fun p => if p.1 = room then (p.1, insertClient p.2 c) else p)
  else rs ++ [(room, [c])]

/-- `Hub.unregisterClient` (handleWSConnection.go:134-197): if the
client's room exists and contains the client's ID, delete the client;
afterwards, if the room's member map is empty, delete the room entry.
Rooms not matching, or a room without the ID, are untouched. -/
def unregisterClient (rs : RoomsMap) (c : WClient) (room : String) : RoomsMap :=
  rs.filterMap (fun p =>
    if p.1 = room ∧ p.2.any (fun x => x.id = c.id) then
      if p.2.filter (fun x => ¬ x.id = c.id) = [] then none
      else some (p.1, p.2.filter (fun x => ¬ x.id = c.id))
    else some p)

/-- Hub states reachable from the initial empty directory by the
register/unregister operations executed (one at a time) by `Hub.run`. -/
inductive ReachableHub : RoomsMap → Prop
  | init : ReachableHub []
  | reg (rs : RoomsMap) (c : WClient) (room : String) :
      ReachableHub rs → ReachableHub (registerClient rs c room)
  | unreg (rs : RoomsMap) (c : WClient) (room : String) :
      ReachableHub rs → ReachableHub (unregisterClient rs c room)

/-- `models.ReplyInfo`: reply information embedded in an envelope. -/
structure ReplyInfo where
  id : String
  sender : String
  text : String
  deriving Repr, DecidableEq

/-- `models.ReactionSummary`: aggregated reaction data for one emoji. -/
structure ReactionSummary where
  emoji : String
  count : Nat
  users : List String
  userIDs : List Nat
  deriving Repr, DecidableEq

/-- `models.MessageResponse`: the outbound envelope serialized to each
room member.  Timestamps are abstract ticks. -/
structure MessageResponse where
  id : String
  sender : String
  avatar : String
  room : String
  text : String
  timestamp : Nat
  type : String
  mediaURL : String
  mediaType : String
  fileName : String
  replyTo : Option ReplyInfo
  reactions : List ReactionSummary
  deriving Repr, DecidableEq

/-- `json.Marshal` on a `MessageResponse`.  For this struct the Go
marshaller is total (no channels/functions/cycles), so serialization is a
plain function; the claims treat the produced byte string as opaque, the
rendering below is a straightforward field listing (injective enough for
the claims, which only compare payloads of one broadcast). -/
def marshal (m : MessageResponse) : String :=
  String.intercalate "|" ([m.id, m.sender, m.avatar, m.room, m.text,
    toString m.timestamp, m.type, m.mediaURL, m.mediaType, m.fileName]
    ++ (match m.replyTo with
        | none => []
        | some r => [r.id, r.sender, r.text])
    ++ m.reactions.map (fun s =>
        String.intercalate "," ([s.emoji, toString s.count] ++ s.users
          ++ s.userIDs.map toString)))

/-- The observable outcome of one `broadcastToRoom` call: the successful
`conn.WriteMessage` deliveries `(clientID, payload)` in loop order, and
the clients scheduled for forced unregister (sent to `h.unregister` by the
error-path goroutine). -/
structure BroadcastOut where
  writes : List (String × String)
  scheduledUnregister : List String
  deriving Repr, DecidableEq

/-- The member loop body of `broadcastToRoom` (handleWSConnection.go:
225-247), folded over the member snapshot: non-websocket connections are
skipped, a failed write schedules a forced unregister, a successful write
delivers the marshaled bytes. -/
def broadcastFold (bytes : String) (members : List WClient)
    (acc : BroadcastOut) : BroadcastOut :=
  members.foldl (fun a c =>
    if c.connIsWS then
      if c.writeFails then
        { a with scheduledUnregister := a.scheduledUnregister ++ [c.id] }
      else
        { a with writes := a.writes ++ [(c.id, bytes)] }
    else a) acc

/-- `Hub.broadcastToRoom` (handleWSConnection.go:204-258): under the
directory read-lock, resolve the member snapshot; if the room exists,
marshal the envelope once and write it to every member. -/
def broadcastToRoom (rs : RoomsMap) (roomID : String)
    (message : MessageResponse) : BroadcastOut :=
  match lookupRoom rs roomID with
  | none => ⟨[], []⟩
  | some members => broadcastFold (marshal message) members ⟨[], []⟩

/-- `models.User` (the fields the claims touch). -/
structure UserRec where
  id : Nat
  name : String
  avatar : String
  deriving Repr, DecidableEq

/-- `models.Room` (persisted room). -/
structure RoomRec where
  id : Nat
  name : String
  isPrivate : Bool
  deriving Repr, DecidableEq

/-- `models.RoomMember` row (role and join time are irrelevant to the
claims). -/
structure MemberRow where
  userID : Nat
  roomID : Nat
  isActive : Bool
  deriving Repr, DecidableEq

/-- `models.MessageReaction` row: the stored (message, user, emoji)
triple.  The surrogate primary key plays no role in any service
operation, which all select and delete by the triple. -/
structure ReactionRow where
  messageID : Nat
  userID : Nat
  emoji : String
  deriving Repr, DecidableEq

/-- A `models.MessageReaction` with its `User` association preloaded, as
`ToResponse` consumes it. -/
structure ReactionRec where
  messageID : Nat
  userID : Nat
  emoji : String
  userName : String
  deriving Repr, DecidableEq

/-- `models.Message` as the hub sees it: the stored columns together
with the preloaded `Sender`/`Room`/`ReplyTo`/`Reactions` associations
(`replyToUUID` stands for the loaded `ReplyTo.UUID`, the only field of
the association `ToResponse` reads; `reactions` carry the joined user
names). -/
structure Message where
  id : Nat
  uuid : String
  senderID : Nat
  roomID : Nat
  text : String
  type : String
  mediaURL : String
  mediaType : String
  fileName : String
  replyToID : Option Nat
  replyToSender : String
  replyToText : String
  createdAt : Nat
  sender : UserRec
  room : RoomRec
  replyToUUID : Option String
  reactions : List ReactionRec
  deriving Repr, DecidableEq

/-- The persistent store the message/room services operate on. -/
structure ChatDB where
  rooms : List RoomRec
  members : List MemberRow
  messages : List Message
  reactions : List ReactionRow
  deriving Repr, DecidableEq

/-- `MessageService.GetMessageIDByUUID`: `SELECT id WHERE uuid = ?`,
`First` = first matching row. -/
def getMessageIDByUUID (db : ChatDB) (uuid : String) : Option Nat :=
  (db.messages.find? (fun m => m.uuid = uuid)).map (fun m => m.id)

/-- Whether a (message, user, emoji) reaction row is present
(`Where("message_id = ? AND user_id = ? AND emoji = ?").First`). -/
def reactionExists (db : ChatDB) (mid userID : Nat) (emoji : String) : Bool :=
  db.reactions.any (fun r => r.messageID = mid ∧ r.userID = userID ∧ r.emoji = emoji)

/-- `MessageService.AddReaction` (services, part_000:696-725): resolve
the message by UUID; if an identical triple already exists, do nothing;
otherwise create the row.  `none` models the `message not found` error.
(The Go function additionally reloads and returns the message; the row
set is what the claims are about.) -/
def addReaction (db : ChatDB) (uuid : String) (userID : Nat)
    (emoji : String) : Option ChatDB :=
  match getMessageIDByUUID db uuid with
  | none => none
  | some mid =>
    if reactionExists db mid userID emoji then some db
    else some { db with reactions := db.reactions ++ [⟨mid, userID, emoji⟩] }

/-- `MessageService.RemoveReaction` (part_000:728-742): delete every row
matching the triple. -/
def removeReaction (db : ChatDB) (uuid : String) (userID : Nat)
    (emoji : String) : Option ChatDB :=
  match getMessageIDByUUID db uuid with
  | none => none
  | some mid =>
    let kept := db.reactions.filter
      (fun r => ¬ (r.messageID = mid ∧ r.userID = userID ∧ r.emoji = emoji))
    some { db with reactions := kept }

/-- `MessageService.ToggleReaction` (part_000:745-763): remove the
reaction if the triple exists, otherwise add it. -/
def toggleReaction (db : ChatDB) (uuid : String) (userID : Nat)
    (emoji : String) : Option ChatDB :=
  match getMessageIDByUUID db uuid with
  | none => none
  | some mid =>
    if reactionExists db mid userID emoji then
      removeReaction db uuid userID emoji
    else
      addReaction db uuid userID emoji

/-- `MessageService.DeleteMessage` (part_000:511-544): find the message
by UUID restricted to `sender_id = userID` (else the
not-found/not-authorized error, modelled `none`); null out `reply_to_id`
on every message that pointed at it; delete its reactions; hard-delete
the message row.  `deleteMediaFile` only touches the filesystem and
never fails the deletion. -/
def deleteMessage (db : ChatDB) (uuid : String) (userID : Nat) : Option ChatDB :=
  match db.messages.find? (fun m => m.uuid = uuid ∧ m.senderID = userID) with
  | none => none
  | some msg =>
    let detached := db.messages.map (fun n =>
      if n.replyToID = some msg.id then { n with replyToID := none } else n)
    some { db with
      messages := detached.filter (fun n => ¬ n.id = msg.id),
      reactions := db.reactions.filter (fun r => ¬ r.messageID = msg.id) }

/-- `RoomService.CanUserAccessRoom` (part_000:386-404): a missing room is
a `record not found` error (modelled `Except.error ()`); a public room is
accessible to anyone; a private room requires any membership row, active
or not. -/
def canUserAccessRoom (db : ChatDB) (userID : Nat) (roomName : String) :
    Except Unit Bool :=
  match db.rooms.find? (fun r => r.name = roomName) with
  | none => Except.error ()
  | some room =>
    if room.isPrivate then
      Except.ok (db.members.any (fun m => m.userID = userID ∧ m.roomID = room.id))
    else
      Except.ok true

/-- A fresh room primary key. -/
def freshRoomID (db : ChatDB) : Nat :=
  db.rooms.foldl (fun a r => max a r.id) 0 + 1

/-- `RoomService.CreateOrGetRoom` (part_000:152-171): return the room if
it exists, else create it; a created room has the zero/default privacy
flag, i.e. it is public. -/
def createOrGetRoom (db : ChatDB) (name : String) : RoomRec × ChatDB :=
  match db.rooms.find? (fun r => r.name = name) with
  | some room => (room, db)
  | none =>
    let room : RoomRec := ⟨freshRoomID db, name, false⟩
    (room, { db with rooms := db.rooms ++ [room] })

/-- Outcome of the connect-time access check. -/
inductive ConnectOutcome
  | granted (db : ChatDB)
  | denied (db : ChatDB)
  | aborted
  deriving Repr, DecidableEq

/-- The connect-time access-check flow of `HandleWSConnection`
(handleWSConnection.go:316-349): run `CanUserAccessRoom`; on the
`record not found` error create the room as public via `CreateOrGetRoom`
and re-check; a remaining error closes the connection (`aborted`);
`canAccess = false` sends the denial and closes (`denied`); otherwise the
client proceeds to registration (`granted`). -/
def connectAccessCheck (db : ChatDB) (userID : Nat) (roomName : String) :
    ConnectOutcome :=
  match canUserAccessRoom db userID roomName with
  | Except.ok true => ConnectOutcome.granted db
  | Except.ok false => ConnectOutcome.denied db
  | Except.error _ =>
    let db' := (createOrGetRoom db roomName).2
    match canUserAccessRoom db' userID roomName with
    | Except.ok true => ConnectOutcome.granted db'
    | Except.ok false => ConnectOutcome.denied db'
    | Except.error _ => ConnectOutcome.aborted

/-- One step of the reaction-grouping loop in `Message.ToResponse`
(models/message.go:203-217): if a summary for the emoji exists, bump its
count and append the user; otherwise start a new summary with count 1. -/
def addReactionToSummaries (acc : List ReactionSummary) (r : ReactionRec) :
    List ReactionSummary :=
  if acc.any (fun s => s.emoji = r.emoji) then
    acc.map (fun s =>
      if s.emoji = r.emoji then
        { s with count := s.count + 1,
                 users := s.users ++ [r.userName],
                 userIDs := s.userIDs ++ [r.userID] }
      else s)
  else
    acc ++ [⟨r.emoji, 1, [r.userName], [r.userID]⟩]

/-- The reaction aggregation of `Message.ToResponse`: fold the loaded
reactions into per-emoji summaries.  (Go builds a `map[string]*...` and
then flattens it in unspecified map order; the fold keeps first-
occurrence order, one of the possible orders, with identical counts and
per-emoji content.) -/
def summarizeReactions (rs : List ReactionRec) : List ReactionSummary :=
  rs.foldl addReactionToSummaries []

/-- `Message.ToResponse` (models/message.go:172-239): project a loaded
message onto the outbound envelope, including the
sender-fallback handling, denormalized reply snapshot, and reaction
aggregation. -/
def toResponse (m : Message) : MessageResponse :=
  let senderName := if m.sender.name = "" then "" else m.sender.name
  let senderAvatar := if m.sender.name = "" then "" else m.sender.avatar
  let roomName := if m.room.name = "" then "" else m.room.name
  let replyInfo : Option ReplyInfo :=
    if m.replyToSender = "" then none
    else some ⟨(m.replyToUUID.getD ""), m.replyToSender, m.replyToText⟩
  { id := m.uuid
    sender := senderName
    avatar := senderAvatar
    room := roomName
    text := m.text
    timestamp := m.createdAt
    type := m.type
    mediaURL := m.mediaURL
    mediaType := m.mediaType
    fileName := m.fileName
    replyTo := replyInfo
    reactions := summarizeReactions m.reactions }

/-- A JSON object field as the dispatcher's type assertions see it:
absent, present but not a string, or a string.  (`v, ok :=
m["k"].(string)` gives `ok = false` for the first two.) -/
inductive JField
  | absent
  | notStr
  | str (s : String)
  deriving Repr, DecidableEq

/-- The `v, ok := m["k"].(string)` assertion. -/
def getStr : JField → Option String
  | JField.str s => some s
  | _ => none

/-- Go's `unicode.IsSpace`: in Latin-1, `'\t'`, `'\n'`, `'\v'`, `'\f'`,
`'\r'`, `' '`, U+0085 (NEL) and U+00A0 (NBSP); beyond Latin-1 the
White_Space property, i.e. U+1680, U+2000–U+200A, U+2028, U+2029,
U+202F, U+205F and U+3000. -/
def isGoSpace (c : Char) : Bool :=
  decide (c.toNat = 9 ∨ c.toNat = 10 ∨ c.toNat = 11 ∨ c.toNat = 12 ∨
    c.toNat = 13 ∨ c.toNat = 32 ∨ c.toNat = 0x85 ∨ c.toNat = 0xA0 ∨
    c.toNat = 0x1680 ∨ (0x2000 ≤ c.toNat ∧ c.toNat ≤ 0x200A) ∨
    c.toNat = 0x2028 ∨ c.toNat = 0x2029 ∨ c.toNat = 0x202F ∨
    c.toNat = 0x205F ∨ c.toNat = 0x3000)

/-- `strings.TrimSpace`: strip leading and trailing `unicode.IsSpace`
characters. -/
def trimSpace (s : String) : String :=
  ⟨((s.data.dropWhile isGoSpace).reverse.dropWhile isGoSpace).reverse⟩

/-- The `messageData["replyTo"].(map[string]interface{})` sub-object. -/
structure ReplyField where
  id : JField
  sender : JField
  text : JField
  deriving Repr, DecidableEq

/-- One successfully decoded inbound frame (`messageData`), restricted
to the fields the dispatcher reads. -/
structure Frame where
  typeField : JField
  text : JField
  mediaUrl : JField
  mediaType : JField
  fileName : JField
  messageId : JField
  emoji : JField
  action : JField
  replyTo : Option ReplyField
  deriving Repr, DecidableEq

/-- The connection's identity (`models.Client` as the dispatcher reads
it). -/
structure ClientRec where
  id : String
  userID : Nat
  name : String
  avatar : String
  room : String
  deriving Repr, DecidableEq

/-- The argument tuple of a `MessageService.CreateMessage` call. -/
structure CreateReq where
  senderID : Nat
  roomID : Nat
  text : String
  msgType : String
  mediaURL : String
  mediaType : String
  fileName : String
  replyToID : Option Nat
  replyToSender : String
  replyToText : String
  deriving Repr, DecidableEq

deriving instance DecidableEq for Except

/-- Per-frame outcomes of the external service calls the dispatcher may
make (the spec treats persistence/authorization as abstract services;
each field is the result the corresponding call would return at that
moment against the live database). -/
structure Oracle where
  /-- `CanUserAccessRoom(client.UserID, client.Room)`. -/
  access : Except Unit Bool
  /-- `GetRoomByName(client.Room)` (`none` = error). -/
  room : Option RoomRec
  /-- `GetMessageIDByUUID(replyUUID)` (`none` = error). -/
  replyLookup : Option Nat
  /-- whether `CreateMessage` succeeds (persistence errors). -/
  createOk : Bool
  /-- primary key / UUID / clock for a created message. -/
  newID : Nat
  newUuid : String
  now : Nat
  /-- the created message's preloaded `Sender`. -/
  senderUser : UserRec
  /-- the created message's preloaded `ReplyTo.UUID`, when loaded. -/
  replyUUIDLoaded : Option String
  /-- whether `DeleteMessage(messageID, client.UserID)` succeeds. -/
  deleteOk : Bool
  /-- `GetMessageByUUID(messageID)` for the reaction branch. -/
  msgLookup : Option Message
  /-- `GetRoomByID(message.RoomID)`. -/
  roomById : Option RoomRec
  /-- `IsUserMemberOfRoom` outcome (`false` covers `err != nil ||
  !isMember`). -/
  memberOk : Bool
  /-- result of the `AddReaction`/`RemoveReaction`/`ToggleReaction` call
  (`none` = error). -/
  reactionResult : Option Message
  deriving Repr, DecidableEq

/-- Everything one dispatched frame does that is observable outside the
loop: envelopes enqueued on `chatHub.broadcast`, `CreateMessage` calls,
a unicast room-update request, `DeleteMessage` calls, and reaction
service calls `(uuid, userID, emoji, action)`. -/
structure StepOut where
  broadcasts : List MessageResponse
  persists : List CreateReq
  roomUpdate : Bool
  deleteCalls : List (String × Nat)
  reactionCalls : List (String × Nat × String × String)
  deriving Repr, DecidableEq

/-- The no-effect outcome (a silently dropped frame). -/
def emptyOut : StepOut := ⟨[], [], false, [], []⟩

/-- `msgType, ok := messageData["type"].(string); if !ok { msgType =
"message" }` (handleWSConnection.go:400-403). -/
def msgTypeOf (f : Frame) : String :=
  (getStr f.typeField).getD "message"

/-- The reply-linkage resolution shared by the media and default
branches (handleWSConnection.go:474-486, 605-617): resolve the replied
message's UUID to an internal id (lookup errors leave it nil) and take
the denormalized sender/text snapshot from the frame. -/
def resolveReply (f : Frame) (o : Oracle) : Option Nat × String × String :=
  match f.replyTo with
  | none => (none, "", "")
  | some rd =>
    let rid : Option Nat :=
      match getStr rd.id with
      | some u => if u = "" then none else o.replyLookup
      | none => none
    (rid, (getStr rd.sender).getD "", (getStr rd.text).getD "")

/-- The message row `CreateMessage` persists and reloads for a given
request (part_000:450-471): all stored columns come from the request,
key/UUID/clock and preloaded associations from the environment; a fresh
message has no reactions. -/
def mkCreated (o : Oracle) (room : RoomRec) (req : CreateReq) : Message :=
  { id := o.newID
    uuid := o.newUuid
    senderID := req.senderID
    roomID := req.roomID
    text := req.text
    type := req.msgType
    mediaURL := req.mediaURL
    mediaType := req.mediaType
    fileName := req.fileName
    replyToID := req.replyToID
    replyToSender := req.replyToSender
    replyToText := req.replyToText
    createdAt := o.now
    sender := o.senderUser
    room := room
    replyToUUID := o.replyUUIDLoaded
    reactions := [] }

/-- The `delete` case (handleWSConnection.go:419-449): require a
non-empty `messageId`; call `DeleteMessage`; on success broadcast the
inline delete notification envelope. -/
def deleteBranch (c : ClientRec) (f : Frame) (o : Oracle) : StepOut :=
  match getStr f.messageId with
  | none => emptyOut
  | some mid =>
    if mid = "" then emptyOut
    else
      let note : MessageResponse :=
        { id := mid, sender := c.name, avatar := c.avatar, room := c.room,
          text := "", timestamp := o.now, type := "delete", mediaURL := "",
          mediaType := "", fileName := "", replyTo := none, reactions := [] }
      if o.deleteOk then
        { emptyOut with deleteCalls := [(mid, c.userID)], broadcasts := [note] }
      else
        { emptyOut with deleteCalls := [(mid, c.userID)] }

/-- The `media` case (handleWSConnection.go:451-508): require a
non-empty `mediaUrl`; look up the room; resolve reply linkage; persist a
`media` message; on success broadcast its response. -/
def mediaBranch (c : ClientRec) (f : Frame) (o : Oracle) : StepOut :=
  let mediaURL := (getStr f.mediaUrl).getD ""
  let mediaType := (getStr f.mediaType).getD ""
  let fileName := (getStr f.fileName).getD ""
  let text := (getStr f.text).getD ""
  if mediaURL = "" then emptyOut
  else
    match o.room with
    | none => emptyOut
    | some room =>
      let r := resolveReply f o
      let req : CreateReq :=
        ⟨c.userID, room.id, text, "media", mediaURL, mediaType, fileName,
          r.1, r.2.1, r.2.2⟩
      if o.createOk then
        { emptyOut with persists := [req],
                        broadcasts := [toResponse (mkCreated o room req)] }
      else
        { emptyOut with persists := [req] }

/-- The `reaction` case (handleWSConnection.go:510-584): require
non-empty `messageId` and `emoji`; default the action to `toggle`; look
up the message and its room; require the message's room to be the
client's bound room, and active membership for a private room; reject
unknown actions; invoke the reaction service; on success broadcast the
updated message with type `reaction_update`. -/
def reactionBranch (c : ClientRec) (f : Frame) (o : Oracle) : StepOut :=
  match getStr f.messageId with
  | none => emptyOut
  | some mid =>
    if mid = "" then emptyOut
    else
      match getStr f.emoji with
      | none => emptyOut
      | some emoji =>
        if emoji = "" then emptyOut
        else
          let action := (getStr f.action).getD "toggle"
          match o.msgLookup with
          | none => emptyOut
          | some _ =>
            match o.roomById with
            | none => emptyOut
            | some room =>
              if ¬ room.name = c.room then emptyOut
              else if room.isPrivate ∧ ¬ o.memberOk then emptyOut
              else if ¬ (action = "add" ∨ action = "remove" ∨ action = "toggle")
                then emptyOut
              else
                match o.reactionResult with
                | none =>
                  { emptyOut with reactionCalls := [(mid, c.userID, emoji, action)] }
                | some updated =>
                  { emptyOut with
                    reactionCalls := [(mid, c.userID, emoji, action)],
                    broadcasts := [{ toResponse updated with type := "reaction_update" }] }

/-- The `default` case, i.e. a regular text message
(handleWSConnection.go:586-640): require text whose trimmed form is
non-empty; look up the room; resolve reply linkage; persist a `message`;
on success broadcast its response. -/
def defaultBranch (c : ClientRec) (f : Frame) (o : Oracle) : StepOut :=
  match getStr f.text with
  | none => emptyOut
  | some text =>
    if trimSpace text = "" then emptyOut
    else
      match o.room with
      | none => emptyOut
      | some room =>
        let r := resolveReply f o
        let req : CreateReq :=
          ⟨c.userID, room.id, text, "message", "", "", "", r.1, r.2.1, r.2.2⟩
        if o.createOk then
          { emptyOut with persists := [req],
                          broadcasts := [toResponse (mkCreated o room req)] }
        else
          { emptyOut with persists := [req] }

/-- The frame-type dispatch of `handleClientMessages`
(handleWSConnection.go:407-640): `ping` is a no-op, `request_room_update`
schedules a unicast room update, `delete`/`media`/`reaction` run their
branches, and every other type value runs the default text-message
branch. -/
def processFrame (c : ClientRec) (f : Frame) (o : Oracle) : StepOut :=
  let t := msgTypeOf f
  if t = "ping" then emptyOut
  else if t = "request_room_update" then { emptyOut with roomUpdate := true }
  else if t = "delete" then deleteBranch c f o
  else if t = "media" then mediaBranch c f o
  else if t = "reaction" then reactionBranch c f o
  else defaultBranch c f o

/-- What happened to one inbound frame in the read loop. -/
inductive FrameOutcome
  | skipped
  | denied
  | dispatched (out : StepOut)
  deriving Repr, DecidableEq

/-- The read loop of `handleClientMessages` (handleWSConnection.go:
374-641) over the successfully read frames (the list ends where
`ReadJSON` fails or the peer closes): every frame first re-runs
`CanUserAccessRoom`; an errored check logs and `continue`s (the frame
is skipped); `canAccess = false` writes the single denial JSON and
`return`s, ending the loop; otherwise the frame is dispatched. -/
def runLoop (c : ClientRec) : List (Frame × Oracle) → List FrameOutcome
  | [] => []
  | (f, o) :: rest =>
    match o.access with
    | Except.error _ => FrameOutcome.skipped :: runLoop c rest
    | Except.ok false => [FrameOutcome.denied]
    | Except.ok true => FrameOutcome.dispatched (processFrame c f o) :: runLoop c rest

/-- Number of denial envelopes written (`conn.WriteJSON` of the access
denial): one per `denied` outcome. -/
def denialCount (outs : List FrameOutcome) : Nat :=
  (outs.filter (fun x => x = FrameOutcome.denied)).length

/-- Whether an outcome dispatched its frame. -/
def isDispatched : FrameOutcome → Bool
  | FrameOutcome.dispatched _ => true
  | _ => false

/-- A whole connection session: its per-frame outcomes, and whether the
connection was sent to `chatHub.unregister`.  The `defer` at
handleWSConnection.go:369-372 runs on every exit path of
`handleClientMessages`, so a session always ends unregistered. -/
structure SessionResult where
  outcomes : List FrameOutcome
  unregistered : Bool
  deriving Repr, DecidableEq

/-- Run a session: process the frames, then the deferred unregister. -/
def runSession (c : ClientRec) (frames : List (Frame × Oracle)) : SessionResult :=
  ⟨runLoop c frames, true⟩

/-- What the loop body of `broadcastToRoom` does with one member on the
delivery side. -/
def deliverOf (bytes : String) (c : WClient) : Option (String × String) :=
  if c.connIsWS ∧ ¬ c.writeFails then some (c.id, bytes) else none

/-- What the loop body of `broadcastToRoom` does with one member on the
failure side. -/
def failOf (c : WClient) : Option String :=
  if c.connIsWS ∧ c.writeFails then some c.id else none

/-- The rows kept by a `RemoveReaction` of the given triple. -/
def removedRows (db : ChatDB) (mid userID : Nat) (emoji : String) :
    List ReactionRow :=
  db.reactions.filter
    (fun r => ¬ (r.messageID = mid ∧ r.userID = userID ∧ r.emoji = emoji))

/-- The per-emoji row count of a loaded reaction list. -/
def emojiCount (rs : List ReactionRec) (e : String) : Nat :=
  (rs.filter (fun r => r.emoji = e)).length

/-- The deleted message of the C5 witness store. -/
def msgM : Message :=
  ⟨1, "u1", 2, 1, "hello", "message", "", "", "", none, "", "", 0,
    ⟨2, "bob", ""⟩, ⟨1, "general", false⟩, none, []⟩

/-- A reply to `msgM` with a denormalized snapshot. -/
def msgN : Message :=
  ⟨2, "u2", 3, 1, "a reply", "message", "", "", "", some 1, "bob", "hello", 1,
    ⟨3, "carol", ""⟩, ⟨1, "general", false⟩, some "u1", []⟩

/-- A message unrelated to `msgM`. -/
def msgP : Message :=
  ⟨3, "u3", 3, 1, "other", "message", "", "", "", none, "", "", 2,
    ⟨3, "carol", ""⟩, ⟨1, "general", false⟩, none, []⟩

/-- A concrete store with a message, a reply to it, a bystander message
and a reaction on the first message. -/
def dbDel : ChatDB :=
  ⟨[⟨1, "general", false⟩], [], [msgM, msgN, msgP], [⟨1, 5, "+1"⟩]⟩

/-- The same store after deleting `msgM`. -/
def dbDelAfter : ChatDB :=
  ⟨[⟨1, "general", false⟩], [], [{ msgN with replyToID := none }, msgP], []⟩

/-- A concrete connection for the read-loop examples. -/
def cEx : ClientRec := ⟨"client_1", 1, "alice", "", "general"⟩

/-- A concrete ping frame. -/
def pingFrame : Frame :=
  ⟨JField.str "ping", JField.absent, JField.absent, JField.absent,
    JField.absent, JField.absent, JField.absent, JField.absent, none⟩

/-- A service environment whose access check succeeds. -/
def baseOracle : Oracle :=
  ⟨Except.ok true, none, none, true, 0, "", 0, ⟨0, "", ""⟩, none, true, none,
    none, true, none⟩

/-- A service environment whose access check errors. -/
def errOracle : Oracle := { baseOracle with access := Except.error () }

/-- A service environment whose access check denies. -/
def denyOracle : Oracle := { baseOracle with access := Except.ok false }

/-! ## Broadcast engine lemmas -/

/-- The member loop delivers the payload to exactly the healthy websocket
members and schedules exactly the failed ones, in loop order. -/
theorem broadcastFold_spec (bytes : String) (members : List WClient)
    (acc : BroadcastOut) :
    broadcastFold bytes members acc =
      ⟨acc.writes ++ members.filterMap (deliverOf bytes),
        acc.scheduledUnregister ++ members.filterMap failOf⟩ := by
  induction members generalizing acc with
  | nil => simp [broadcastFold]
  | cons h t ih =>
    have step : broadcastFold bytes (h :: t) acc =
        broadcastFold bytes t
          (if h.connIsWS then
            if h.writeFails then
              { acc with scheduledUnregister := acc.scheduledUnregister ++ [h.id] }
            else
              { acc with writes := acc.writes ++ [(h.id, bytes)] }
          else acc) := by
      simp [broadcastFold]
    rw [step, ih]
    by_cases hws : h.connIsWS = true <;> by_cases hwf : h.writeFails = true <;>
      simp [hws, hwf, List.filterMap_cons, deliverOf, failOf]

/-- Every delivered write carries the id of some member. -/
theorem write_id_mem (bytes : String) (members : List WClient) (w : String × String)
    (hw : w ∈ members.filterMap (deliverOf bytes)) :
    w.1 ∈ members.map WClient.id := by
  rcases List.mem_filterMap.mp hw with ⟨c, hc, hfc⟩
  by_cases h : c.connIsWS ∧ ¬ c.writeFails
  · rw [deliverOf, if_pos h] at hfc
    cases hfc
    exact List.mem_map.mpr ⟨c, hc, rfl⟩
  · rw [deliverOf, if_neg h] at hfc
    cases hfc

/-- With member ids unique (they are keys of a Go map), the deliveries to
a given healthy member are exactly one copy of the payload. -/
theorem writes_filter_eq (bytes : String) (members : List WClient) (c : WClient)
    (hnd : (members.map WClient.id).Nodup) (hc : c ∈ members)
    (hws : c.connIsWS = true) (hwf : c.writeFails = false) :
    ((members.filterMap (deliverOf bytes)).filter (fun w => w.1 = c.id))
      = [(c.id, bytes)] := by
  induction members with
  | nil => cases hc
  | cons h t ih =>
    have hnd' : (t.map WClient.id).Nodup := (List.nodup_cons.mp hnd).2
    have hnotin : h.id ∉ t.map WClient.id := (List.nodup_cons.mp hnd).1
    rcases List.mem_cons.mp hc with rfl | hct
    · have hcond : c.connIsWS ∧ ¬ c.writeFails := by
        refine ⟨hws, ?_⟩
        simp [hwf]
      have hhead : deliverOf bytes c = some (c.id, bytes) := by
        rw [deliverOf, if_pos hcond]
      have hrest : ((t.filterMap (deliverOf bytes)).filter
          (fun w => w.1 = c.id)) = [] := by
        apply List.filter_eq_nil_iff.mpr
        intro w hw
        have := write_id_mem bytes t w hw
        simp only [decide_eq_true_eq]
        intro hwe
        exact hnotin (hwe ▸ this)
      rw [List.filterMap_cons, hhead]
      simp [hrest]
    · have hid : ¬ h.id = c.id := by
        intro he
        exact hnotin (he ▸ List.mem_map.mpr ⟨c, hct, rfl⟩)
      rw [List.filterMap_cons]
      cases hh : deliverOf bytes h with
      | none => exact ih hnd' hct
      | some w =>
        have hw1 : w.1 = h.id := by
          rw [deliverOf] at hh
          by_cases hcond : h.connIsWS ∧ ¬ h.writeFails
          · rw [if_pos hcond] at hh
            cases hh
            rfl
          · rw [if_neg hcond] at hh
            cases hh
        rw [List.filter_cons]
        have hne : ¬ w.1 = c.id := by
          rw [hw1]
          exact hid
        rw [if_neg (by simp [hne])]
        exact ih hnd' hct

/-- C1: for every broadcast to a room, with the member snapshot taken
when `broadcastToRoom` resolves the room, every member whose connection
is a live websocket and whose write does not fail is written exactly one
copy of the once-marshaled envelope — no duplication, no omission. -/
theorem broadcastToRoom_exactly_once (rs : RoomsMap) (roomID : String)
    (message : MessageResponse) (members : List WClient) (c : WClient)
    (hmem : lookupRoom rs roomID = some members)
    (hnd : (members.map WClient.id).Nodup)
    (hc : c ∈ members) (hws : c.connIsWS = true) (hwf : c.writeFails = false) :
    ((broadcastToRoom rs roomID message).writes.filter (fun w => w.1 = c.id))
      = [(c.id, marshal message)] := by
  simp only [broadcastToRoom, hmem]
  rw [broadcastFold_spec]
  simpa using writes_filter_eq (marshal message) members c hnd hc hws hwf

/-- C1 witness: a concrete two-member room in which the looked-up member
receives exactly one copy. -/
theorem broadcastToRoom_exactly_once_witness :
    ((broadcastToRoom
        [("general", [⟨"a", "alice", true, false⟩, ⟨"b", "bob", true, false⟩])]
        "general" ⟨"m1", "alice", "", "general", "hi", 0, "message", "", "", "", none, []⟩).writes.filter
      (fun w => w.1 = "a"))
      = [("a", marshal ⟨"m1", "alice", "", "general", "hi", 0, "message", "", "", "", none, []⟩)] :=
  broadcastToRoom_exactly_once
    [("general", [⟨"a", "alice", true, false⟩, ⟨"b", "bob", true, false⟩])]
    "general" ⟨"m1", "alice", "", "general", "hi", 0, "message", "", "", "", none, []⟩
    [⟨"a", "alice", true, false⟩, ⟨"b", "bob", true, false⟩] ⟨"a", "alice", true, false⟩
    (by decide) (by decide) (by decide) (by decide) (by decide)

/-- C7: a write failure on one member does not prevent any other member
of the snapshot from being written the envelope, and the failed member is
scheduled for forced unregister through the hub's unregister channel. -/
theorem broadcastToRoom_failure_isolated (rs : RoomsMap) (roomID : String)
    (message : MessageResponse) (members : List WClient) (cbad cgood : WClient)
    (hmem : lookupRoom rs roomID = some members)
    (hnd : (members.map WClient.id).Nodup)
    (hbad : cbad ∈ members) (hbws : cbad.connIsWS = true)
    (hbf : cbad.writeFails = true)
    (hgood : cgood ∈ members) (hgws : cgood.connIsWS = true)
    (hgf : cgood.writeFails = false) :
    ((broadcastToRoom rs roomID message).writes.filter (fun w => w.1 = cgood.id))
        = [(cgood.id, marshal message)] ∧
      cbad.id ∈ (broadcastToRoom rs roomID message).scheduledUnregister := by
  constructor
  · simp only [broadcastToRoom, hmem]
    rw [broadcastFold_spec]
    simpa using writes_filter_eq (marshal message) members cgood hnd hgood hgws hgf
  · simp only [broadcastToRoom, hmem]
    rw [broadcastFold_spec]
    simp only [List.nil_append]
    apply List.mem_filterMap.mpr
    refine ⟨cbad, hbad, ?_⟩
    simp [failOf, hbws, hbf]

/-- C7 witness: the first member's write fails, the second member still
receives one copy, and the first is scheduled for unregister. -/
theorem broadcastToRoom_failure_isolated_witness :
    ((broadcastToRoom
        [("general", [⟨"a", "alice", true, true⟩, ⟨"b", "bob", true, false⟩])]
        "general" ⟨"m1", "alice", "", "general", "hi", 0, "message", "", "", "", none, []⟩).writes.filter
      (fun w => w.1 = "b"))
        = [("b", marshal ⟨"m1", "alice", "", "general", "hi", 0, "message", "", "", "", none, []⟩)] ∧
      "a" ∈ (broadcastToRoom
        [("general", [⟨"a", "alice", true, true⟩, ⟨"b", "bob", true, false⟩])]
        "general" ⟨"m1", "alice", "", "general", "hi", 0, "message", "", "", "", none, []⟩).scheduledUnregister :=
  broadcastToRoom_failure_isolated
    [("general", [⟨"a", "alice", true, true⟩, ⟨"b", "bob", true, false⟩])]
    "general" ⟨"m1", "alice", "", "general", "hi", 0, "message", "", "", "", none, []⟩
    [⟨"a", "alice", true, true⟩, ⟨"b", "bob", true, false⟩]
    ⟨"a", "alice", true, true⟩ ⟨"b", "bob", true, false⟩
    (by decide) (by decide) (by decide) (by decide) (by decide)
    (by decide) (by decide) (by decide)

/-! ## Hub room-directory invariant -/

/-- Adding a client to a member map never yields an empty map. -/
theorem insertClient_ne_nil (cs : List WClient) (c : WClient) :
    insertClient cs c ≠ [] := by
  rw [insertClient]
  by_cases h : cs.any (fun x => x.id = c.id) = true
  · rw [if_pos h]
    cases cs with
    | nil => simp at h
    | cons a t => simp
  · rw [if_neg h]
    simp

/-- Every room entry of a reachable hub state has a non-empty member
map: `registerClient` only ever creates a room together with its first
member, and `unregisterClient` deletes an entry it empties. -/
theorem reachable_no_empty_room (rs : RoomsMap) (h : ReachableHub rs) :
    ∀ p ∈ rs, p.2 ≠ [] := by
  induction h with
  | init =>
    intro p hp
    cases hp
  | reg rs c room _ ih =>
    intro p hp
    rw [registerClient] at hp
    by_cases hex : rs.any (fun q => q.1 = room) = true
    · rw [if_pos hex] at hp
      rcases List.mem_map.mp hp with ⟨q, hq, hqe⟩
      by_cases hq1 : q.1 = room
      · rw [if_pos hq1] at hqe
        rw [← hqe]
        exact insertClient_ne_nil q.2 c
      · rw [if_neg hq1] at hqe
        rw [← hqe]
        exact ih q hq
    · rw [if_neg hex] at hp
      rcases List.mem_append.mp hp with hin | hnew
      · exact ih p hin
      · rw [List.mem_singleton] at hnew
        rw [hnew]
        simp
  | unreg rs c room _ ih =>
    intro p hp
    rw [unregisterClient] at hp
    rcases List.mem_filterMap.mp hp with ⟨q, hq, hqe⟩
    by_cases hcond : q.1 = room ∧ q.2.any (fun x => x.id = c.id)
    · rw [if_pos hcond] at hqe
      by_cases hrest : q.2.filter (fun x => ¬ x.id = c.id) = []
      · rw [if_pos hrest] at hqe
        cases hqe
      · rw [if_neg hrest] at hqe
        obtain rfl := Option.some.inj hqe
        exact hrest
    · rw [if_neg hcond] at hqe
      obtain rfl := Option.some.inj hqe
      exact ih q hq

/-- Unregister step on a head entry that matches and is emptied. -/
theorem unregisterClient_cons_drop (p : String × List WClient) (t : RoomsMap)
    (c : WClient) (room : String)
    (hcond : p.1 = room ∧ p.2.any (fun x => x.id = c.id))
    (hrest : p.2.filter (fun x => ¬ x.id = c.id) = []) :
    unregisterClient (p :: t) c room = unregisterClient t c room := by
  simp only [unregisterClient, List.filterMap_cons, if_pos hcond, if_pos hrest]

/-- Unregister step on a head entry that does not match. -/
theorem unregisterClient_cons_keep (p : String × List WClient) (t : RoomsMap)
    (c : WClient) (room : String)
    (hcond : ¬ (p.1 = room ∧ p.2.any (fun x => x.id = c.id))) :
    unregisterClient (p :: t) c room = p :: unregisterClient t c room := by
  simp only [unregisterClient, List.filterMap_cons, if_neg hcond]

/-- `unregisterClient` never introduces a room key. -/
theorem unregister_key_mem (rs : RoomsMap) (c : WClient) (room : String)
    (q : String × List WClient) (hq : q ∈ unregisterClient rs c room) :
    q.1 ∈ rs.map Prod.fst := by
  rw [unregisterClient] at hq
  rcases List.mem_filterMap.mp hq with ⟨p, hp, hpe⟩
  by_cases hcond : p.1 = room ∧ p.2.any (fun x => x.id = c.id)
  · rw [if_pos hcond] at hpe
    by_cases hrest : p.2.filter (fun x => ¬ x.id = c.id) = []
    · rw [if_pos hrest] at hpe
      cases hpe
    · rw [if_neg hrest] at hpe
      obtain rfl := Option.some.inj hpe
      exact List.mem_map.mpr ⟨p, hp, rfl⟩
  · rw [if_neg hcond] at hpe
    obtain rfl := Option.some.inj hpe
    exact List.mem_map.mpr ⟨p, hp, rfl⟩

/-- If no entry carries the key, the lookup fails. -/
theorem lookupRoom_eq_none (rs : RoomsMap) (name : String)
    (h : ∀ p ∈ rs, ¬ p.1 = name) : lookupRoom rs name = none := by
  rw [lookupRoom]
  rw [List.find?_eq_none.mpr]
  · rfl
  · intro p hp
    simp [h p hp]

/-- C2: in every hub state reachable by register/unregister steps, a
room name has an entry in the rooms map only with at least one member
(and trivially conversely); and the unregister that removes a room's
last member leaves the room absent from the map. -/
theorem room_entry_iff_nonempty :
    (∀ rs : RoomsMap, ReachableHub rs →
      ∀ name ms, lookupRoom rs name = some ms → ms ≠ []) ∧
    (∀ (rs : RoomsMap) (c : WClient) (room : String) (ms : List WClient),
      (rs.map Prod.fst).Nodup →
      lookupRoom rs room = some ms →
      ms.any (fun x => x.id = c.id) = true →
      ms.filter (fun x => ¬ x.id = c.id) = [] →
      lookupRoom (unregisterClient rs c room) room = none) := by
  constructor
  · intro rs hreach name ms hms
    rw [lookupRoom] at hms
    cases hfind : rs.find? (fun p => p.1 = name) with
    | none =>
      rw [hfind] at hms
      cases hms
    | some p =>
      rw [hfind] at hms
      cases hms
      exact reachable_no_empty_room rs hreach p (List.mem_of_find?_eq_some hfind)
  · intro rs c room ms hnd hms hany hempty
    induction rs with
    | nil =>
      rw [lookupRoom] at hms
      cases hms
    | cons p t ih =>
      have hnd' : (t.map Prod.fst).Nodup := (List.nodup_cons.mp hnd).2
      have hnotin : p.1 ∉ t.map Prod.fst := (List.nodup_cons.mp hnd).1
      by_cases hp1 : p.1 = room
      · have hmsp : p.2 = ms := by
          rw [lookupRoom] at hms
          rw [List.find?_cons_of_pos] at hms
          · cases hms
            rfl
          · simp [hp1]
        have hcond : p.1 = room ∧ p.2.any (fun x => x.id = c.id) := by
          refine ⟨hp1, ?_⟩
          rw [hmsp]
          exact hany
        have hrest : p.2.filter (fun x => ¬ x.id = c.id) = [] := by
          rw [hmsp]
          exact hempty
        rw [unregisterClient_cons_drop p t c room hcond hrest]
        apply lookupRoom_eq_none
        intro q hq
        have hqt : q.1 ∈ t.map Prod.fst :=
          unregister_key_mem t c room q hq
        intro hqe
        apply hnotin
        rw [hp1, ← hqe]
        exact hqt
      · have hms' : lookupRoom t room = some ms := by
          rw [lookupRoom] at hms
          rw [List.find?_cons_of_neg] at hms
          · exact hms
          · simp [hp1]
        have htail := ih hnd' hms'
        have hcond : ¬ (p.1 = room ∧ p.2.any (fun x => x.id = c.id)) := by
          intro hx
          exact hp1 hx.1
        rw [unregisterClient_cons_keep p t c room hcond]
        rw [lookupRoom, List.find?_cons_of_neg]
        · exact htail
        · simp [hp1]

/-- C2 witness: from the empty hub, register one client into `general`;
the room entry is non-empty; unregistering that last member removes the
`general` entry. -/
theorem room_entry_iff_nonempty_witness :
    ([(⟨"a", "alice", true, false⟩ : WClient)]) ≠ ([] : List WClient) ∧
    lookupRoom (unregisterClient
        [("general", [(⟨"a", "alice", true, false⟩ : WClient)])]
        ⟨"a", "alice", true, false⟩ "general") "general" = none := by
  constructor
  · exact room_entry_iff_nonempty.1
      (registerClient [] ⟨"a", "alice", true, false⟩ "general")
      (ReachableHub.reg [] ⟨"a", "alice", true, false⟩ "general" ReachableHub.init)
      "general" [⟨"a", "alice", true, false⟩] (by decide)
  · exact room_entry_iff_nonempty.2
      [("general", [⟨"a", "alice", true, false⟩])]
      ⟨"a", "alice", true, false⟩ "general" [⟨"a", "alice", true, false⟩]
      (by decide) (by decide) (by decide) (by decide)

/-! ## Connect-time access check -/

/-- C8: if no room of the given name exists in storage, the connect-time
access check does not deny: `CanUserAccessRoom`'s `record not found`
error makes `HandleWSConnection` create the room as public and re-check,
so the result is `granted` with the public room persisted. -/
theorem nonexistent_room_granted (db : ChatDB) (userID : Nat) (roomName : String)
    (h : db.rooms.find? (fun r => r.name = roomName) = none) :
    connectAccessCheck db userID roomName =
      ConnectOutcome.granted
        { db with rooms := db.rooms ++ [⟨freshRoomID db, roomName, false⟩] } := by
  have h1 : canUserAccessRoom db userID roomName = Except.error () := by
    rw [canUserAccessRoom, h]
  have hfind : ((db.rooms ++ [(⟨freshRoomID db, roomName, false⟩ : RoomRec)]).find?
      (fun r => r.name = roomName)) = some ⟨freshRoomID db, roomName, false⟩ := by
    rw [List.find?_append, h]
    simp [List.find?]
  have hcr : createOrGetRoom db roomName =
      (⟨freshRoomID db, roomName, false⟩,
        { db with rooms := db.rooms ++ [⟨freshRoomID db, roomName, false⟩] }) := by
    rw [createOrGetRoom, h]
  have h2 : canUserAccessRoom
      { db with rooms := db.rooms ++ [⟨freshRoomID db, roomName, false⟩] }
      userID roomName = Except.ok true := by
    rw [canUserAccessRoom]
    simp only [hfind]
    rfl
  rw [connectAccessCheck, h1]
  simp only [hcr, h2]

/-- C8 witness: a store with one unrelated room; joining a fresh name is
granted and creates it as public. -/
theorem nonexistent_room_granted_witness :
    connectAccessCheck ⟨[⟨1, "other", true⟩], [], [], []⟩ 7 "general" =
      ConnectOutcome.granted
        ⟨[⟨1, "other", true⟩, ⟨2, "general", false⟩], [], [], []⟩ :=
  nonexistent_room_granted ⟨[⟨1, "other", true⟩], [], [], []⟩ 7 "general" (by decide)

/-! ## Reaction service -/

/-- A reaction row with exactly the matched fields is the matched
triple. -/
theorem reactionRow_match_iff (r : ReactionRow) (mid userID : Nat) (emoji : String) :
    (r.messageID = mid ∧ r.userID = userID ∧ r.emoji = emoji) ↔
      r = ⟨mid, userID, emoji⟩ := by
  cases r
  simp [ReactionRow.mk.injEq]

/-- `reactionExists` is membership of the triple. -/
theorem reactionExists_iff (db : ChatDB) (mid userID : Nat) (emoji : String) :
    reactionExists db mid userID emoji = true ↔
      (⟨mid, userID, emoji⟩ : ReactionRow) ∈ db.reactions := by
  rw [reactionExists, List.any_eq_true]
  constructor
  · rintro ⟨r, hr, hm⟩
    simp only [decide_eq_true_eq] at hm
    exact ((reactionRow_match_iff r mid userID emoji).mp hm) ▸ hr
  · intro hmem
    refine ⟨⟨mid, userID, emoji⟩, hmem, ?_⟩
    simp

/-- C10: adding a reaction when an identical (message, user, emoji) row
already exists succeeds and returns the store unchanged — `AddReaction`
is idempotent and never creates a duplicate row. -/
theorem addReaction_idempotent (db : ChatDB) (uuid : String) (userID : Nat)
    (emoji : String) (mid : Nat)
    (hm : getMessageIDByUUID db uuid = some mid)
    (hr : (⟨mid, userID, emoji⟩ : ReactionRow) ∈ db.reactions) :
    addReaction db uuid userID emoji = some db := by
  simp only [addReaction, hm]
  rw [if_pos ((reactionExists_iff db mid userID emoji).mpr hr)]

/-- C10 witness: a one-message, one-reaction store where re-adding the
same reaction is a no-op. -/
theorem addReaction_idempotent_witness :
    addReaction
      ⟨[], [],
        [⟨1, "u1", 1, 1, "hi", "message", "", "", "", none, "", "", 0,
          ⟨1, "alice", ""⟩, ⟨1, "general", false⟩, none, []⟩],
        [⟨1, 2, "+1"⟩]⟩
      "u1" 2 "+1" =
      some ⟨[], [],
        [⟨1, "u1", 1, 1, "hi", "message", "", "", "", none, "", "", 0,
          ⟨1, "alice", ""⟩, ⟨1, "general", false⟩, none, []⟩],
        [⟨1, 2, "+1"⟩]⟩ :=
  addReaction_idempotent
    ⟨[], [],
      [⟨1, "u1", 1, 1, "hi", "message", "", "", "", none, "", "", 0,
        ⟨1, "alice", ""⟩, ⟨1, "general", false⟩, none, []⟩],
      [⟨1, 2, "+1"⟩]⟩
    "u1" 2 "+1" 1 (by decide) (by decide)

/-- The rows surviving a `RemoveReaction` never match the removed
triple. -/
theorem reactionExists_filter_false (db : ChatDB) (mid userID : Nat)
    (emoji : String) :
    ¬ reactionExists { db with reactions := removedRows db mid userID emoji }
        mid userID emoji = true := by
  rw [reactionExists_iff]
  intro hmem
  have := (List.mem_filter.mp hmem).2
  simp at this

/-- Toggling a present reaction removes exactly the matching rows. -/
theorem toggle_of_exists (db : ChatDB) (uuid : String) (userID : Nat)
    (emoji : String) (mid : Nat)
    (hm : getMessageIDByUUID db uuid = some mid)
    (hex : reactionExists db mid userID emoji = true) :
    toggleReaction db uuid userID emoji =
      some { db with reactions := removedRows db mid userID emoji } := by
  rw [toggleReaction]
  simp only [hm, if_pos hex, removeReaction, hm]
  rfl

/-- Toggling an absent reaction appends the row. -/
theorem toggle_of_not_exists (db : ChatDB) (uuid : String) (userID : Nat)
    (emoji : String) (mid : Nat)
    (hm : getMessageIDByUUID db uuid = some mid)
    (hex : ¬ reactionExists db mid userID emoji = true) :
    toggleReaction db uuid userID emoji =
      some { db with reactions := db.reactions ++ [⟨mid, userID, emoji⟩] } := by
  rw [toggleReaction]
  simp only [hm, if_neg hex, addReaction, hm, if_neg hex]

theorem emojiCount_append (l1 l2 : List ReactionRec) (e : String) :
    emojiCount (l1 ++ l2) e = emojiCount l1 e + emojiCount l2 e := by
  simp [emojiCount, List.filter_append]

theorem emojiCount_single_eq (r : ReactionRec) (e : String) (h : r.emoji = e) :
    emojiCount [r] e = 1 := by
  simp [emojiCount, h]

theorem emojiCount_single_ne (r : ReactionRec) (e : String) (h : ¬ r.emoji = e) :
    emojiCount [r] e = 0 := by
  simp [emojiCount, h]

/-- One grouping step preserves the count invariant. -/
theorem summarize_step_count (processed : List ReactionRec)
    (acc : List ReactionSummary) (r : ReactionRec)
    (h1 : ∀ s ∈ acc, s.count = emojiCount processed s.emoji)
    (h2 : ∀ e, acc.any (fun s => s.emoji = e) = processed.any (fun x => x.emoji = e)) :
    ∀ s ∈ addReactionToSummaries acc r,
      s.count = emojiCount (processed ++ [r]) s.emoji := by
  intro s hs
  rw [addReactionToSummaries] at hs
  by_cases hpres : acc.any (fun s => s.emoji = r.emoji) = true
  · rw [if_pos hpres] at hs
    rcases List.mem_map.mp hs with ⟨s0, hs0, hse⟩
    by_cases he : s0.emoji = r.emoji
    · rw [if_pos he] at hse
      rw [← hse]
      have hc : emojiCount (processed ++ [r]) s0.emoji =
          emojiCount processed s0.emoji + 1 := by
        rw [emojiCount_append, emojiCount_single_eq r s0.emoji he.symm]
      simp only [hc]
      rw [h1 s0 hs0]
    · rw [if_neg he] at hse
      rw [← hse]
      have hc : emojiCount (processed ++ [r]) s0.emoji =
          emojiCount processed s0.emoji := by
        rw [emojiCount_append, emojiCount_single_ne r s0.emoji (fun hx => he hx.symm)]
        exact Nat.add_zero _
      rw [hc]
      exact h1 s0 hs0
  · rw [if_neg hpres] at hs
    rcases List.mem_append.mp hs with hin | hnew
    · have hne : ¬ s.emoji = r.emoji := by
        intro hx
        apply hpres
        exact List.any_eq_true.mpr ⟨s, hin, by simp [hx]⟩
      have hc : emojiCount (processed ++ [r]) s.emoji =
          emojiCount processed s.emoji := by
        rw [emojiCount_append, emojiCount_single_ne r s.emoji (fun hx => hne hx.symm)]
        exact Nat.add_zero _
      rw [hc]
      exact h1 s hin
    · rw [List.mem_singleton] at hnew
      rw [hnew]
      have hzero : emojiCount processed r.emoji = 0 := by
        have hany : processed.any (fun x => x.emoji = r.emoji) = false := by
          rw [← h2 r.emoji]
          cases hb : acc.any (fun s => s.emoji = r.emoji)
          · rfl
          · exact absurd hb hpres
        rw [emojiCount, List.length_eq_zero]
        apply List.filter_eq_nil_iff.mpr
        intro x hx hpx
        have : (processed.any fun x => x.emoji = r.emoji) = true :=
          List.any_eq_true.mpr ⟨x, hx, hpx⟩
        rw [hany] at this
        cases this
      have hone : emojiCount (processed ++ [r]) r.emoji = 1 := by
        rw [emojiCount_append, hzero, emojiCount_single_eq r r.emoji rfl]
      simp [hone]

/-- One grouping step preserves the emoji-presence invariant. -/
theorem summarize_step_any (processed : List ReactionRec)
    (acc : List ReactionSummary) (r : ReactionRec)
    (h2 : ∀ e, acc.any (fun s => s.emoji = e) = processed.any (fun x => x.emoji = e)) :
    ∀ e, (addReactionToSummaries acc r).any (fun s => s.emoji = e) =
      (processed ++ [r]).any (fun x => x.emoji = e) := by
  intro e
  rw [addReactionToSummaries]
  by_cases hpres : acc.any (fun s => s.emoji = r.emoji) = true
  · rw [if_pos hpres]
    have hmap : ((acc.map (fun s =>
        if s.emoji = r.emoji then
          { s with count := s.count + 1,
                   users := s.users ++ [r.userName],
                   userIDs := s.userIDs ++ [r.userID] }
        else s)).any (fun s => s.emoji = e)) = acc.any (fun s => s.emoji = e) := by
      rw [List.any_map]
      congr 1
      funext s
      by_cases he : s.emoji = r.emoji
      · simp [Function.comp, he]
      · simp [Function.comp, he]
    rw [hmap, List.any_append, h2 e]
    by_cases hre : r.emoji = e
    · have : processed.any (fun x => x.emoji = e) = true := by
        rw [← hre, ← h2 r.emoji]
        exact hpres
      simp [this, hre]
    · simp [hre]
  · rw [if_neg hpres]
    rw [List.any_append, List.any_append, h2 e]
    simp

/-- Folding the grouping loop preserves the count invariant. -/
theorem summarize_loop_count (rs : List ReactionRec) :
    ∀ (processed : List ReactionRec) (acc : List ReactionSummary),
      (∀ s ∈ acc, s.count = emojiCount processed s.emoji) →
      (∀ e, acc.any (fun s => s.emoji = e) = processed.any (fun x => x.emoji = e)) →
      ∀ s ∈ rs.foldl addReactionToSummaries acc,
        s.count = emojiCount (processed ++ rs) s.emoji := by
  induction rs with
  | nil =>
    intro processed acc h1 _ s hs
    simpa using h1 s hs
  | cons r rest ih =>
    intro processed acc h1 h2 s hs
    rw [List.foldl_cons] at hs
    have := ih (processed ++ [r]) (addReactionToSummaries acc r)
      (summarize_step_count processed acc r h1 h2)
      (summarize_step_any processed acc r h2) s hs
    simpa [List.append_assoc] using this

/-- Every summary produced by the `ToResponse` grouping carries the exact
per-emoji row count. -/
theorem summarize_count (rs : List ReactionRec) :
    ∀ s ∈ summarizeReactions rs, s.count = emojiCount rs s.emoji := by
  intro s hs
  have := summarize_loop_count rs [] []
    (by intro s hsx; cases hsx) (by intro e; rfl) s hs
  simpa using this

/-- C4: toggling the same (message, user, emoji) reaction twice returns
the reaction-row set to its initial value (toggle is self-inverse on the
row set, messages untouched), and every reaction summary emitted by
`ToResponse` has a count that is the exact (hence non-negative) number of
currently-held rows for its emoji among the message's loaded reactions. -/
theorem toggle_selfinverse_and_counts :
    (∀ (db : ChatDB) (uuid : String) (userID : Nat) (emoji : String) (db' : ChatDB),
      toggleReaction db uuid userID emoji = some db' →
      ∃ db'', toggleReaction db' uuid userID emoji = some db'' ∧
        (∀ r : ReactionRow, r ∈ db''.reactions ↔ r ∈ db.reactions) ∧
        db''.messages = db.messages) ∧
    (∀ (m : Message) (s : ReactionSummary), s ∈ (toResponse m).reactions →
      s.count = (m.reactions.filter (fun r => r.emoji = s.emoji)).length) := by
  constructor
  · intro db uuid userID emoji db' h
    cases hm : getMessageIDByUUID db uuid with
    | none =>
      rw [toggleReaction, hm] at h
      cases h
    | some mid =>
      by_cases hex : reactionExists db mid userID emoji = true
      · rw [toggle_of_exists db uuid userID emoji mid hm hex] at h
        obtain rfl := (Option.some.inj h).symm
        have hm' : getMessageIDByUUID
            { db with reactions := removedRows db mid userID emoji }
            uuid = some mid := hm
        have hex' := reactionExists_filter_false db mid userID emoji
        refine ⟨_, toggle_of_not_exists _ uuid userID emoji mid hm' hex', ?_, rfl⟩
        intro r
        have htriple : (⟨mid, userID, emoji⟩ : ReactionRow) ∈ db.reactions :=
          (reactionExists_iff db mid userID emoji).mp hex
        by_cases hr : r = ⟨mid, userID, emoji⟩
        · subst hr
          simp [htriple, removedRows]
        · simp only [removedRows, List.mem_append, List.mem_filter,
            List.mem_singleton]
          constructor
          · rintro (⟨hin, _⟩ | hx)
            · exact hin
            · exact absurd hx hr
          · intro hin
            refine Or.inl ⟨hin, ?_⟩
            simp only [decide_eq_true_eq]
            intro hmatch
            exact hr ((reactionRow_match_iff r mid userID emoji).mp hmatch)
      · rw [toggle_of_not_exists db uuid userID emoji mid hm hex] at h
        obtain rfl := (Option.some.inj h).symm
        have hm' : getMessageIDByUUID
            { db with reactions := db.reactions ++ [⟨mid, userID, emoji⟩] }
            uuid = some mid := hm
        have hex' : reactionExists
            { db with reactions := db.reactions ++ [⟨mid, userID, emoji⟩] }
            mid userID emoji = true := by
          rw [reactionExists_iff]
          exact List.mem_append.mpr (Or.inr (List.mem_singleton.mpr rfl))
        refine ⟨_, toggle_of_exists _ uuid userID emoji mid hm' hex', ?_, rfl⟩
        intro r
        have hnone : ∀ x ∈ db.reactions,
            ¬ (x.messageID = mid ∧ x.userID = userID ∧ x.emoji = emoji) := by
          intro x hx hmatch
          exact hex ((reactionExists_iff db mid userID emoji).mpr
            ((reactionRow_match_iff x mid userID emoji).mp hmatch ▸ hx))
        simp only [removedRows, List.filter_append, List.mem_append]
        constructor
        · rintro (hin | hx)
          · exact (List.mem_filter.mp hin).1
          · exfalso
            have := (List.mem_filter.mp hx).2
            have hxm := (List.mem_filter.mp hx).1
            rw [List.mem_singleton] at hxm
            subst hxm
            simp at this
        · intro hin
          refine Or.inl (List.mem_filter.mpr ⟨hin, ?_⟩)
          simp only [decide_eq_true_eq]
          exact hnone r hin
  · intro m s hs
    have : (toResponse m).reactions = summarizeReactions m.reactions := rfl
    rw [this] at hs
    have := summarize_count m.reactions s hs
    rw [this]
    rfl

/-- C4 witness: toggling `x` by user 2 on a one-row store removes it and
a second toggle restores the row set; the summary of a one-reaction
message counts exactly its row. -/
theorem toggle_selfinverse_and_counts_witness :
    (∃ db'', toggleReaction
        ⟨[], [],
          [⟨1, "u1", 1, 1, "hi", "message", "", "", "", none, "", "", 0,
            ⟨1, "alice", ""⟩, ⟨1, "general", false⟩, none, []⟩],
          []⟩
        "u1" 2 "x" = some db'' ∧
      (∀ r : ReactionRow, r ∈ db''.reactions ↔ r ∈
        (⟨[], [],
          [⟨1, "u1", 1, 1, "hi", "message", "", "", "", none, "", "", 0,
            ⟨1, "alice", ""⟩, ⟨1, "general", false⟩, none, []⟩],
          [⟨1, 2, "x"⟩]⟩ : ChatDB).reactions) ∧
      db''.messages =
        (⟨[], [],
          [⟨1, "u1", 1, 1, "hi", "message", "", "", "", none, "", "", 0,
            ⟨1, "alice", ""⟩, ⟨1, "general", false⟩, none, []⟩],
          [⟨1, 2, "x"⟩]⟩ : ChatDB).messages) ∧
    ((1 : Nat) = ([(⟨1, 2, "x", "bob"⟩ : ReactionRec)].filter
      (fun r => r.emoji = "x")).length) := by
  constructor
  · exact toggle_selfinverse_and_counts.1
      ⟨[], [],
        [⟨1, "u1", 1, 1, "hi", "message", "", "", "", none, "", "", 0,
          ⟨1, "alice", ""⟩, ⟨1, "general", false⟩, none, []⟩],
        [⟨1, 2, "x"⟩]⟩
      "u1" 2 "x"
      ⟨[], [],
        [⟨1, "u1", 1, 1, "hi", "message", "", "", "", none, "", "", 0,
          ⟨1, "alice", ""⟩, ⟨1, "general", false⟩, none, []⟩],
        []⟩
      (by decide)
  · exact toggle_selfinverse_and_counts.2
      ⟨1, "u1", 1, 1, "hi", "message", "", "", "", none, "", "", 0,
        ⟨1, "alice", ""⟩, ⟨1, "general", false⟩, none, [⟨1, 2, "x", "bob"⟩]⟩
      ⟨"x", 1, ["bob"], [2]⟩ (by decide)

/-! ## Message deletion -/

/-- C5: a successful `DeleteMessage` of M rewrites every message whose
`reply_to_id` pointed at M to the very same record with `reply_to_id`
nulled (so the denormalized `ReplyToSender`/`ReplyToText` snapshot and
all other fields are untouched), and leaves non-replying messages
entirely unchanged; M itself is removed. -/
theorem delete_detaches_replies (db : ChatDB) (uuid : String) (userID : Nat)
    (msg : Message) (db' : ChatDB)
    (hfind : db.messages.find? (fun m => m.uuid = uuid ∧ m.senderID = userID)
      = some msg)
    (hdel : deleteMessage db uuid userID = some db') :
    db'.messages = (db.messages.map (fun n =>
        if n.replyToID = some msg.id then { n with replyToID := none } else n)).filter
      (fun n => ¬ n.id = msg.id) ∧
    ∀ n ∈ db.messages, ¬ n.id = msg.id →
      (n.replyToID = some msg.id → { n with replyToID := none } ∈ db'.messages) ∧
      (¬ n.replyToID = some msg.id → n ∈ db'.messages) := by
  have hdb' : db' = { db with
      messages := (db.messages.map (fun n =>
        if n.replyToID = some msg.id then { n with replyToID := none } else n)).filter
          (fun n => ¬ n.id = msg.id),
      reactions := db.reactions.filter (fun r => ¬ r.messageID = msg.id) } := by
    simp only [deleteMessage, hfind] at hdel
    exact (Option.some.inj hdel).symm
  subst hdb'
  refine ⟨rfl, ?_⟩
  intro n hn hne
  constructor
  · intro hrep
    apply List.mem_filter.mpr
    refine ⟨List.mem_map.mpr ⟨n, hn, ?_⟩, ?_⟩
    · rw [if_pos hrep]
    · simp [hne]
  · intro hrep
    apply List.mem_filter.mpr
    refine ⟨List.mem_map.mpr ⟨n, hn, ?_⟩, ?_⟩
    · rw [if_neg hrep]
    · simp [hne]

/-- C5 witness: deleting `msgM` detaches `msgN` (snapshot fields kept)
and keeps `msgP` unchanged. -/
theorem delete_detaches_replies_witness :
    ({ msgN with replyToID := none } ∈ dbDelAfter.messages) ∧
      (msgP ∈ dbDelAfter.messages) := by
  have h := delete_detaches_replies dbDel "u1" 2 msgM dbDelAfter
    (by decide) (by decide)
  exact ⟨(h.2 msgN (by decide) (by decide)).1 (by decide),
    (h.2 msgP (by decide) (by decide)).2 (by decide)⟩

/-! ## Protocol dispatcher -/

/-- Dispatch reduces to the default (text message) branch whenever the
extracted type is none of the five switch cases. -/
theorem processFrame_default (c : ClientRec) (f : Frame) (o : Oracle)
    (h1 : ¬ msgTypeOf f = "ping") (h2 : ¬ msgTypeOf f = "request_room_update")
    (h3 : ¬ msgTypeOf f = "delete") (h4 : ¬ msgTypeOf f = "media")
    (h5 : ¬ msgTypeOf f = "reaction") :
    processFrame c f o = defaultBranch c f o := by
  simp only [processFrame, if_neg h1, if_neg h2, if_neg h3, if_neg h4, if_neg h5]

/-- C6: an inbound frame handled by the media or default (message)
branch whose `CreateMessage` call errors enqueues no envelope on the
hub's broadcast channel — the frame's broadcast is aborted entirely. -/
theorem persist_error_no_broadcast (c : ClientRec) (f : Frame) (o : Oracle)
    (h1 : ¬ msgTypeOf f = "ping") (h2 : ¬ msgTypeOf f = "request_room_update")
    (h3 : ¬ msgTypeOf f = "delete") (h4 : ¬ msgTypeOf f = "reaction")
    (hp : o.createOk = false) :
    (processFrame c f o).broadcasts = [] := by
  by_cases hm : msgTypeOf f = "media"
  · rw [processFrame]
    simp only [if_neg h1, if_neg h2, if_neg h3, if_pos hm]
    rw [mediaBranch]
    by_cases hurl : (getStr f.mediaUrl).getD "" = ""
    · simp [hurl, emptyOut]
    · cases ho : o.room with
      | none => simp [hurl, ho, emptyOut]
      | some room => simp [hurl, ho, hp, emptyOut]
  · rw [processFrame_default c f o h1 h2 h3 hm h4]
    rw [defaultBranch]
    cases ht : getStr f.text with
    | none => simp [emptyOut]
    | some text =>
      by_cases htr : trimSpace text = ""
      · simp [htr, emptyOut]
      · cases ho : o.room with
        | none => simp [htr, ho, emptyOut]
        | some room => simp [htr, ho, hp, emptyOut]

/-- C6 witness: a plain text frame whose persistence fails produces no
broadcast. -/
theorem persist_error_no_broadcast_witness :
    (processFrame ⟨"client_1", 1, "alice", "", "general"⟩
      ⟨JField.absent, JField.str "hello", JField.absent, JField.absent,
        JField.absent, JField.absent, JField.absent, JField.absent, none⟩
      ⟨Except.ok true, some ⟨1, "general", false⟩, none, false, 9, "u9", 5,
        ⟨1, "alice", ""⟩, none, true, none, none, true, none⟩).broadcasts = [] :=
  persist_error_no_broadcast
    ⟨"client_1", 1, "alice", "", "general"⟩
    ⟨JField.absent, JField.str "hello", JField.absent, JField.absent,
      JField.absent, JField.absent, JField.absent, JField.absent, none⟩
    ⟨Except.ok true, some ⟨1, "general", false⟩, none, false, 9, "u9", 5,
      ⟨1, "alice", ""⟩, none, true, none, none, true, none⟩
    (by decide) (by decide) (by decide) (by decide) (by decide)

/-- The default branch never reads the type field. -/
theorem defaultBranch_typeField (c : ClientRec) (f : Frame) (o : Oracle)
    (t : JField) :
    defaultBranch c { f with typeField := t } o = defaultBranch c f o := rfl

/-- C9: a frame whose `type` is absent, not a string, or a string
outside the dispatched enumeration is handled exactly like a `message`
frame: with non-empty trimmed text (and the room and persistence calls
succeeding) it is persisted and broadcast with kind `message`, otherwise
it is silently dropped with no effect at all. -/
theorem unknown_type_as_message (c : ClientRec) (f : Frame) (o : Oracle)
    (h : getStr f.typeField = none ∨
      ∃ s, getStr f.typeField = some s ∧ ¬ s = "message" ∧ ¬ s = "media" ∧
        ¬ s = "delete" ∧ ¬ s = "reaction" ∧ ¬ s = "ping" ∧
        ¬ s = "request_room_update") :
    processFrame c f o =
      processFrame c { f with typeField := JField.str "message" } o ∧
    ((trimSpace ((getStr f.text).getD "")) = "" → processFrame c f o = emptyOut) ∧
    (∀ text room, getStr f.text = some text → ¬ trimSpace text = "" →
      o.room = some room → o.createOk = true →
      (processFrame c f o).persists.map CreateReq.msgType = ["message"] ∧
      (processFrame c f o).broadcasts.map MessageResponse.type = ["message"]) := by
  have hdef : processFrame c f o = defaultBranch c f o := by
    rcases h with hno | ⟨s, hsome, hmsg, hmed, hdel, hrea, hping, hreq⟩
    · have ht : msgTypeOf f = "message" := by
        rw [msgTypeOf, hno]
        rfl
      exact processFrame_default c f o (by rw [ht]; decide) (by rw [ht]; decide)
        (by rw [ht]; decide) (by rw [ht]; decide) (by rw [ht]; decide)
    · have ht : msgTypeOf f = s := by
        rw [msgTypeOf, hsome]
        rfl
      exact processFrame_default c f o (by rw [ht]; exact hping)
        (by rw [ht]; exact hreq) (by rw [ht]; exact hdel) (by rw [ht]; exact hmed)
        (by rw [ht]; exact hrea)
  have hdef2 : processFrame c { f with typeField := JField.str "message" } o =
      defaultBranch c f o := by
    have hmt : msgTypeOf { f with typeField := JField.str "message" } =
        "message" := rfl
    have := processFrame_default c { f with typeField := JField.str "message" } o
      (by rw [hmt]; decide) (by rw [hmt]; decide) (by rw [hmt]; decide)
      (by rw [hmt]; decide) (by rw [hmt]; decide)
    rw [this, defaultBranch_typeField]
  refine ⟨by rw [hdef, hdef2], ?_, ?_⟩
  · intro htr
    rw [hdef, defaultBranch]
    cases ht : getStr f.text with
    | none => rfl
    | some text =>
      rw [ht] at htr
      simp only [Option.getD_some] at htr
      simp [htr]
  · intro text room ht htr ho hck
    rw [hdef, defaultBranch]
    rw [ht, ho]
    simp only [htr, if_neg, hck, if_pos, if_true]
    constructor
    · simp [htr]
    · simp [htr, toResponse, mkCreated]

/-- C9 witness: a frame of unknown type `banana` with text `hello` and
room/persistence succeeding behaves as a `message` frame. -/
theorem unknown_type_as_message_witness :
    (processFrame ⟨"client_1", 1, "alice", "", "general"⟩
        ⟨JField.str "banana", JField.str "hello", JField.absent, JField.absent,
          JField.absent, JField.absent, JField.absent, JField.absent, none⟩
        ⟨Except.ok true, some ⟨1, "general", false⟩, none, true, 9, "u9", 5,
          ⟨1, "alice", ""⟩, none, true, none, none, true, none⟩).persists.map
        CreateReq.msgType = ["message"] ∧
    (processFrame ⟨"client_1", 1, "alice", "", "general"⟩
        ⟨JField.str "banana", JField.str "hello", JField.absent, JField.absent,
          JField.absent, JField.absent, JField.absent, JField.absent, none⟩
        ⟨Except.ok true, some ⟨1, "general", false⟩, none, true, 9, "u9", 5,
          ⟨1, "alice", ""⟩, none, true, none, none, true, none⟩).broadcasts.map
        MessageResponse.type = ["message"] :=
  (unknown_type_as_message ⟨"client_1", 1, "alice", "", "general"⟩
      ⟨JField.str "banana", JField.str "hello", JField.absent, JField.absent,
        JField.absent, JField.absent, JField.absent, JField.absent, none⟩
      ⟨Except.ok true, some ⟨1, "general", false⟩, none, true, 9, "u9", 5,
        ⟨1, "alice", ""⟩, none, true, none, none, true, none⟩
      (Or.inr ⟨"banana", rfl, by decide, by decide, by decide, by decide,
        by decide, by decide⟩)).2.2
    "hello" ⟨1, "general", false⟩ rfl (by decide) rfl rfl

/-! ## Read-loop access revalidation -/

theorem runLoop_cons_err (c : ClientRec) (f : Frame) (o : Oracle)
    (rest : List (Frame × Oracle)) (h : o.access = Except.error ()) :
    runLoop c ((f, o) :: rest) = FrameOutcome.skipped :: runLoop c rest := by
  simp only [runLoop, h]

theorem runLoop_cons_false (c : ClientRec) (f : Frame) (o : Oracle)
    (rest : List (Frame × Oracle)) (h : o.access = Except.ok false) :
    runLoop c ((f, o) :: rest) = [FrameOutcome.denied] := by
  simp only [runLoop, h]

theorem runLoop_cons_true (c : ClientRec) (f : Frame) (o : Oracle)
    (rest : List (Frame × Oracle)) (h : o.access = Except.ok true) :
    runLoop c ((f, o) :: rest) =
      FrameOutcome.dispatched (processFrame c f o) :: runLoop c rest := by
  simp only [runLoop, h]

theorem denialCount_cons_ne (x : FrameOutcome) (l : List FrameOutcome)
    (h : ¬ x = FrameOutcome.denied) :
    denialCount (x :: l) = denialCount l := by
  simp [denialCount, h]

theorem denialCount_append (l1 l2 : List FrameOutcome) :
    denialCount (l1 ++ l2) = denialCount l1 + denialCount l2 := by
  simp [denialCount, List.filter_append]

/-- C3 (amended): when access revalidation returns `canAccess = false`
(with no error) for the first time at some frame, the loop writes
exactly one denial envelope, terminates there so that no later frame is
ever dispatched, and the session's deferred unregister runs.  (Frames
whose check *errors* are merely skipped — see the counterexample.) -/
theorem denial_once_on_false (c : ClientRec) (pre : List (Frame × Oracle))
    (f : Frame) (o : Oracle) (post : List (Frame × Oracle))
    (hpre : ∀ p ∈ pre, ¬ p.2.access = Except.ok false)
    (ho : o.access = Except.ok false) :
    runLoop c (pre ++ (f, o) :: post) = runLoop c pre ++ [FrameOutcome.denied] ∧
    denialCount (runLoop c (pre ++ (f, o) :: post)) = 1 ∧
    denialCount (runLoop c pre) = 0 ∧
    (runSession c (pre ++ (f, o) :: post)).unregistered = true := by
  have main : runLoop c (pre ++ (f, o) :: post) =
      runLoop c pre ++ [FrameOutcome.denied] ∧
      denialCount (runLoop c pre) = 0 := by
    induction pre with
    | nil =>
      rw [List.nil_append, runLoop_cons_false c f o post ho]
      exact ⟨rfl, rfl⟩
    | cons p rest ih =>
      have hp : ¬ p.2.access = Except.ok false := hpre p (List.mem_cons_self p rest)
      have hrest : ∀ q ∈ rest, ¬ q.2.access = Except.ok false := by
        intro q hq
        exact hpre q (List.mem_cons_of_mem p hq)
      have ihr := ih hrest
      obtain ⟨pf, po⟩ := p
      cases ha : po.access with
      | error e =>
        cases e
        rw [List.cons_append, runLoop_cons_err c pf po _ ha,
          runLoop_cons_err c pf po rest ha]
        refine ⟨by rw [ihr.1, List.cons_append], ?_⟩
        rw [denialCount_cons_ne _ _ (by intro hx; cases hx)]
        exact ihr.2
      | ok b =>
        cases b
        · exact absurd ha hp
        · rw [List.cons_append, runLoop_cons_true c pf po _ ha,
            runLoop_cons_true c pf po rest ha]
          refine ⟨by rw [ihr.1, List.cons_append], ?_⟩
          rw [denialCount_cons_ne _ _ (by intro hx; cases hx)]
          exact ihr.2
  refine ⟨main.1, ?_, main.2, rfl⟩
  rw [main.1, denialCount_append, main.2]
  rfl

/-- C3 witness: with a clean first frame and a denying second frame, the
loop emits exactly one denial, stops before the third frame, and the
session unregisters. -/
theorem denial_once_on_false_witness :
    runLoop cEx ([(pingFrame, baseOracle)] ++
        (pingFrame, denyOracle) :: [(pingFrame, baseOracle)]) =
      runLoop cEx [(pingFrame, baseOracle)] ++ [FrameOutcome.denied] ∧
    denialCount (runLoop cEx ([(pingFrame, baseOracle)] ++
      (pingFrame, denyOracle) :: [(pingFrame, baseOracle)])) = 1 ∧
    denialCount (runLoop cEx [(pingFrame, baseOracle)]) = 0 ∧
    (runSession cEx ([(pingFrame, baseOracle)] ++
      (pingFrame, denyOracle) :: [(pingFrame, baseOracle)])).unregistered = true :=
  denial_once_on_false cEx [(pingFrame, baseOracle)] pingFrame denyOracle
    [(pingFrame, baseOracle)] (by decide) (by decide)

/-- C3 counterexample: when the access check returns an *error* (as
opposed to `canAccess = false`), `handleClientMessages` merely logs and
`continue`s: no denial envelope is written, the connection is not torn
down, and the next frame is still dispatched — contradicting the claim
that a `CanAccess` error yields exactly one denial envelope, a forced
unregister, and no further dispatch. -/
theorem access_error_skips_frame_counterexample :
    errOracle.access = Except.error () ∧
    runLoop cEx [(pingFrame, errOracle), (pingFrame, baseOracle)] =
      [FrameOutcome.skipped, FrameOutcome.dispatched emptyOut] ∧
    denialCount (runLoop cEx [(pingFrame, errOracle), (pingFrame, baseOracle)])
      = 0 ∧
    isDispatched ((runLoop cEx
      [(pingFrame, errOracle), (pingFrame, baseOracle)]).getD 1
        FrameOutcome.skipped) = true := by
  decide

end RealtimeChat
